import Mathlib

/-!
# go-ad-auth: connection, bind and password change

A shallow embedding of `conn.go` (`Config.Connect`, `Conn.Bind`) and `passwd.go`
(`Conn.ModifyDNPassword`, `UpdatePassword`).

The LDAP library (`go-ldap`) is an injected capability: a `Directory` value decides the
outcome of every library call from the history of calls made so far, and a `World` value
records the calls the program has issued and which transport sessions are open. Go
functions that touch the connection become functions `World → result × World`.
-/

namespace Auth

/-! ## Go errors -/

/-- A Go `error` value. `ldap` is a `*ldap.Error` with its `ResultCode` and the text its
`Error()` method returns; `plain` is any other error carrying only a text (`errors.New`,
a network error); `wrap` is the result of `fmt.Errorf` with a `%w` operand: the formatted
text together with the wrapped error. -/
inductive GoError where
  | ldap (ResultCode : Nat) (text : String)
  | plain (text : String)
  | wrap (text : String) (inner : GoError)
  deriving DecidableEq, Repr

deriving instance DecidableEq for Except

/-- The method `Error()` of a Go error. -/
def GoError.Error : GoError → String
  | .ldap _ text => text
  | .plain text => text
  | .wrap text _ => text

/-- The constant `ldap.LDAPResultInvalidCredentials`. -/
def LDAPResultInvalidCredentials : Nat := 49

/-- The call `errors.New(msg)`. -/
def errors.New (msg : String) : GoError := .plain msg

/-! ## Strings -/

/-- Go `strings.Contains` on character lists: some suffix of `s` starts with `substr`. -/
def containsChars (substr : List Char) : List Char → Bool
  | [] => substr.isEmpty
  | c :: cs => substr.isPrefixOf (c :: cs) || containsChars substr cs

/-- Go `strings.Contains(s, substr)`. -/
def strings.Contains (s substr : String) : Bool :=
  containsChars substr.data s.data

/-! ## Configuration -/

/-- Modelled from the spec: the declaration of `SecurityType` and its five constants is in a
file that is not available. The five modes are the spec's closed enum; `unrecognized`
stands for every other integer value, which `Connect` sends to its `default` case. -/
inductive SecurityType where
  | SecurityNone
  | SecurityTLS
  | SecurityStartTLS
  | SecurityInsecureTLS
  | SecurityInsecureStartTLS
  | unrecognized (raw : Nat)
  deriving DecidableEq, Repr

/-- A set of trusted certificate authorities (`*x509.CertPool`), kept abstract. -/
abbrev CertPool := List String

/-- Modelled from the spec: the declaration of `Config` is in a file that is not available;
these are the fields `Connect` reads. `RootCAs = none` is the Go nil pointer. -/
structure Config where
  Server : String
  Port : Nat
  Security : SecurityType
  RootCAs : Option CertPool
  deriving DecidableEq, Repr

/-- The fields of `tls.Config` that `Connect` sets; an omitted `RootCAs` is nil and an
omitted `InsecureSkipVerify` is false. -/
structure TLSConfig where
  ServerName : String
  RootCAs : Option CertPool
  InsecureSkipVerify : Bool
  deriving DecidableEq, Repr

/-! ## Modify requests -/

/-- The change operations of an LDAP modify request. -/
inductive Operation where
  | AddAttribute
  | DeleteAttribute
  | ReplaceAttribute
  deriving DecidableEq, Repr

/-- One `ldap.Change`: operation, attribute type and values. A value is a Go string,
here its bytes. -/
structure Change where
  Op : Operation
  AttrType : String
  Vals : List (List Nat)
  deriving DecidableEq, Repr

/-- An `ldap.ModifyRequest` (controls are always nil in this program). -/
structure ModifyRequest where
  DN : String
  Changes : List Change
  deriving DecidableEq, Repr

/-- The call `ldap.NewModifyRequest(dn, nil)`. -/
def NewModifyRequest (dn : String) : ModifyRequest := ⟨dn, []⟩

/-- The method `req.Delete(attrType, attrVals)`. -/
def ModifyRequest.Delete (req : ModifyRequest) (attrType : String) (attrVals : List (List Nat)) :
    ModifyRequest :=
  { req with Changes := req.Changes ++ [⟨.DeleteAttribute, attrType, attrVals⟩] }

/-- The method `req.Add(attrType, attrVals)`. -/
def ModifyRequest.Add (req : ModifyRequest) (attrType : String) (attrVals : List (List Nat)) :
    ModifyRequest :=
  { req with Changes := req.Changes ++ [⟨.AddAttribute, attrType, attrVals⟩] }

/-- The method `req.Replace(attrType, attrVals)`. -/
def ModifyRequest.Replace (req : ModifyRequest) (attrType : String) (attrVals : List (List Nat)) :
    ModifyRequest :=
  { req with Changes := req.Changes ++ [⟨.ReplaceAttribute, attrType, attrVals⟩] }

/-! ## The directory library as a capability -/

/-- A call the program makes on the LDAP library. Sessions are named by a number. -/
inductive Call where
  | dial (addr : String)
  | dialTLS (addr : String) (cfg : TLSConfig)
  | startTLS (session : Nat) (cfg : TLSConfig)
  | bind (session : Nat) (upn password : String)
  | search (session : Nat) (attr value : String)
  | modify (session : Nat) (req : ModifyRequest)
  | close (session : Nat)
  deriving DecidableEq, Repr

/-- The TLS configuration a call hands to the library, if it hands one. -/
def Call.tlsConfig : Call → Option TLSConfig
  | .dialTLS _ cfg => some cfg
  | .startTLS _ cfg => some cfg
  | _ => none

/-- Whether a call is a modify operation. -/
def Call.isModify : Call → Bool
  | .modify _ _ => true
  | _ => false

/-- Whether a call closes a session. -/
def Call.isClose : Call → Bool
  | .close _ => true
  | _ => false

/-- How a `StartTLS` call ends. On failure the library either leaves the session as it was
(the server refused the upgrade, the request could not be sent) or has torn the session
down itself (the handshake failed). -/
inductive StartTLSOutcome where
  | ok
  | failed (err : GoError) (closedByLibrary : Bool)
  deriving DecidableEq, Repr

/-- The behaviour of the library and of the server behind it: the outcome of each call,
given the calls issued before it. `none` is a nil error. -/
structure Directory where
  dial : List Call → String → Option GoError
  dialTLS : List Call → String → TLSConfig → Option GoError
  startTLS : List Call → Nat → TLSConfig → StartTLSOutcome
  bind : List Call → Nat → String → String → Option GoError
  search : List Call → Nat → String → String → Except GoError (List String)
  modify : List Call → Nat → ModifyRequest → Option GoError

/-- The observable state: the calls issued so far, the sessions that are open, and the
number the next session will get. -/
structure World where
  trace : List Call
  live : List Nat
  next : Nat
  deriving DecidableEq, Repr

/-- The state before anything happened. -/
def World.init : World := ⟨[], [], 0⟩

/-- The calls issued since the state `w0`. -/
def World.since (w w0 : World) : List Call := w.trace.drop w0.trace.length

/-- The type `Conn` of `conn.go`: the library connection (its session number) and the
configuration that produced it. -/
structure Conn where
  conn : Nat
  config : Config
  deriving DecidableEq, Repr

/-- The call `ldap.Dial("tcp", addr)`: on success a new session is open. -/
def ldap.Dial (d : Directory) (addr : String) (w : World) : Except GoError Nat × World :=
  match d.dial w.trace addr with
  | some err => (.error err, { w with trace := w.trace ++ [.dial addr] })
  | none => (.ok w.next, ⟨w.trace ++ [.dial addr], w.next :: w.live, w.next + 1⟩)

/-- The call `ldap.DialTLS("tcp", addr, cfg)`: on success a new session is open. -/
def ldap.DialTLS (d : Directory) (addr : String) (cfg : TLSConfig) (w : World) :
    Except GoError Nat × World :=
  match d.dialTLS w.trace addr cfg with
  | some err => (.error err, { w with trace := w.trace ++ [.dialTLS addr cfg] })
  | none => (.ok w.next, ⟨w.trace ++ [.dialTLS addr cfg], w.next :: w.live, w.next + 1⟩)

/-- The method `conn.StartTLS(cfg)` of the library connection. -/
def ldap.StartTLS (d : Directory) (conn : Nat) (cfg : TLSConfig) (w : World) :
    Option GoError × World :=
  match d.startTLS w.trace conn cfg with
  | .ok => (none, { w with trace := w.trace ++ [.startTLS conn cfg] })
  | .failed err closedByLibrary =>
    (some err, { w with trace := w.trace ++ [.startTLS conn cfg],
                        live := if closedByLibrary then w.live.filter (· ≠ conn) else w.live })

/-- The method `conn.Bind(upn, password)` of the library connection: one round-trip. -/
def ldap.Bind (d : Directory) (conn : Nat) (upn password : String) (w : World) :
    Option GoError × World :=
  (d.bind w.trace conn upn password, { w with trace := w.trace ++ [.bind conn upn password] })

/-- The method `conn.Modify(req)` of the library connection. -/
def ldap.Modify (d : Directory) (conn : Nat) (req : ModifyRequest) (w : World) :
    Option GoError × World :=
  (d.modify w.trace conn req, { w with trace := w.trace ++ [.modify conn req] })

/-- The method `conn.Close()` of the library connection. -/
def ldap.Close (conn : Nat) (w : World) : World :=
  { w with trace := w.trace ++ [.close conn], live := w.live.filter (· ≠ conn) }

/-! ## conn.go -/

/-- The address `fmt.Sprintf("%s:%d", c.Server, c.Port)`. -/
def Config.addr (c : Config) : String := c.Server ++ ":" ++ toString c.Port

/-- The function `(*Config).Connect` of `conn.go`. -/
def Config.Connect (d : Directory) (c : Config) (w : World) : Except GoError Conn × World :=
  match c.Security with
  | .SecurityNone =>
    match ldap.Dial d c.addr w with
    | (.error err, w1) => (.error (.wrap ("Connection error: " ++ err.Error) err), w1)
    | (.ok conn, w1) => (.ok ⟨conn, c⟩, w1)
  | .SecurityTLS =>
    match ldap.DialTLS d c.addr ⟨c.Server, c.RootCAs, false⟩ w with
    | (.error err, w1) => (.error (.wrap ("Connection error: " ++ err.Error) err), w1)
    | (.ok conn, w1) => (.ok ⟨conn, c⟩, w1)
  | .SecurityStartTLS =>
    match ldap.Dial d c.addr w with
    | (.error err, w1) => (.error (.wrap ("Connection error: " ++ err.Error) err), w1)
    | (.ok conn, w1) =>
      match ldap.StartTLS d conn ⟨c.Server, c.RootCAs, false⟩ w1 with
      | (some err, w2) => (.error (.wrap ("Connection error: " ++ err.Error) err), w2)
      | (none, w2) => (.ok ⟨conn, c⟩, w2)
  | .SecurityInsecureTLS =>
    match ldap.DialTLS d c.addr ⟨c.Server, none, true⟩ w with
    | (.error err, w1) => (.error (.wrap ("Connection error: " ++ err.Error) err), w1)
    | (.ok conn, w1) => (.ok ⟨conn, c⟩, w1)
  | .SecurityInsecureStartTLS =>
    match ldap.Dial d c.addr w with
    | (.error err, w1) => (.error (.wrap ("Connection error: " ++ err.Error) err), w1)
    | (.ok conn, w1) =>
      match ldap.StartTLS d conn ⟨c.Server, none, true⟩ w1 with
      | (some err, w2) => (.error (.wrap ("Connection error: " ++ err.Error) err), w2)
      | (none, w2) => (.ok ⟨conn, c⟩, w2)
  | .unrecognized _ => (.error (errors.New "Configuration error: invalid SecurityType"), w)

/-- The message `Bind` chooses for an invalid-credentials error whose text is `s`. -/
def bindMessage (s : String) : String :=
  if strings.Contains s "52e" then "账号或密码不正确"
  else if strings.Contains s "773" then "该账号必须修改密码后才能使用"
  else if strings.Contains s "775" then "该账号已锁定, 请联系管理员解锁!"
  else if strings.Contains s "532" then "密码已过有效期,请联系管理员重置!"
  else if strings.Contains s "533" then "该账号已禁用,请联系管理员!"
  else if strings.Contains s "701" then "该账号已过期,请联系管理员!"
  else s

/-- The function `(*Conn).Bind` of `conn.go`. -/
def Conn.Bind (d : Directory) (c : Conn) (upn password : String) (w : World) :
    (Bool × Option GoError) × World :=
  if password = "" then ((false, none), w)
  else
    match ldap.Bind d c.conn upn password w with
    | (some err, w1) =>
      match err with
      | .ldap ResultCode _ =>
        if ResultCode = LDAPResultInvalidCredentials then
          ((false, some (errors.New (bindMessage err.Error))), w1)
        else ((false, some (.wrap ("Bind error (" ++ upn ++ "): " ++ err.Error) err)), w1)
      | _ => ((false, some (.wrap ("Bind error (" ++ upn ++ "): " ++ err.Error) err)), w1)
    | (none, w1) => ((true, none), w1)

/-! ## The UTF-16 encoder of `golang.org/x/text/encoding/unicode` -/

/-- The byte order of the encoder. -/
inductive Endianness where
  | BigEndian
  | LittleEndian
  deriving DecidableEq, Repr

/-- The byte-order-mark policy of the encoder. -/
inductive BOMPolicy where
  | IgnoreBOM
  | UseBOM
  | ExpectBOM
  deriving DecidableEq, Repr

/-- Whether the policy has the `writeBOM` bit: `IgnoreBOM` is 0, the other two include it. -/
def BOMPolicy.writeBOM : BOMPolicy → Bool
  | .IgnoreBOM => false
  | .UseBOM => true
  | .ExpectBOM => true

/-- The Go conversion `uint8(x)`. -/
def uint8 (x : Nat) : Nat := x % 256

/-- The function `utf16.EncodeRune` of the Go standard library. -/
def utf16.EncodeRune (r : Nat) : Nat × Nat :=
  if r < 0x10000 ∨ r > 0x10FFFF then (0xFFFD, 0xFFFD)
  else (0xd800 + (((r - 0x10000) >>> 10) &&& 0x3ff), 0xdc00 + ((r - 0x10000) &&& 0x3ff))

/-- The bytes the encoder's `Transform` loop writes for the runes of `src`, high byte
first. -/
def utf16Encoder.runes : List Char → List Nat
  | [] => []
  | c :: cs =>
    let r := c.toNat
    if r ≤ 0xFFFF then uint8 (r >>> 8) :: uint8 r :: utf16Encoder.runes cs
    else
      let (r1, r2) := utf16.EncodeRune r
      uint8 (r1 >>> 8) :: uint8 r1 :: uint8 (r2 >>> 8) :: uint8 r2 :: utf16Encoder.runes cs

/-- The final loop of `Transform` for little endian: swap the two bytes of every pair. -/
def utf16Encoder.swap : List Nat → List Nat
  | a :: b :: rest => b :: a :: utf16Encoder.swap rest
  | rest => rest

/-- The method `Transform` of the UTF-16 encoder on a whole input: an optional byte order
mark, the runes, and the byte swap for little endian. -/
def utf16Encoder.Transform (e : Endianness) (b : BOMPolicy) (src : List Char) : List Nat :=
  let dst := (if b.writeBOM then [0xfe, 0xff] else []) ++ utf16Encoder.runes src
  match e with
  | .LittleEndian => utf16Encoder.swap dst
  | .BigEndian => dst

/-- The call `unicode.UTF16(e, b).NewEncoder().String(s)`. A Lean string is valid Unicode
text, for which the encoder reports no error. -/
def unicode.UTF16.String (e : Endianness) (b : BOMPolicy) (s : String) :
    Except GoError (List Nat) :=
  .ok (utf16Encoder.Transform e b s.data)

/-- The text of fmt.Sprintf with the format `"%s"` in double quotes: the operand between
two double quotes. -/
def sprintfQuoted (passwd : String) : String := "\"" ++ passwd ++ "\""

/-! ## UTF-16LE as the spec words it -/

/-- The UTF-16 code units of one character: itself below U+10000, else a surrogate pair. -/
def specCodeUnits (c : Char) : List Nat :=
  if c.toNat < 0x10000 then [c.toNat]
  else [0xD800 + (c.toNat - 0x10000) / 0x400, 0xDC00 + (c.toNat - 0x10000) % 0x400]

/-- The UTF-16 code units of a text. -/
def specUTF16 : List Char → List Nat
  | [] => []
  | c :: cs => specCodeUnits c ++ specUTF16 cs

/-- Little-endian bytes of a sequence of 16-bit code units, low byte first. -/
def specLittleEndian : List Nat → List Nat
  | [] => []
  | u :: us => u % 256 :: u / 256 :: specLittleEndian us

/-- The password attribute value the spec asks for: UTF-16LE, without byte order mark, of
the plaintext between two double quotes. -/
def specPasswordValue (plaintext : String) : List Nat :=
  specLittleEndian (specUTF16 (['"'] ++ plaintext.data ++ ['"']))

/-! ## `fmt.Errorf` called with a format and no operands

`UpdatePassword` passes its message to `fmt.Errorf` as the format string, with no operand.
What follows is `doPrintf` of the Go package `fmt` for an empty operand list
(`len(a) = 0`, so `argNum` stays 0). Positions count characters of the format; the one
place where Go counts bytes is the length test of `parseArgNumber`. -/

/-- The function `tooLarge` of package `fmt`. -/
def tooLarge (x : Nat) : Bool := decide (x > 1000000)

/-- The loop of `parsenum` over the segment `s[start:end]`, of length `n`; `k` is
`newi - start`. -/
def parsenum.loop (n : Nat) : List Char → Nat → Bool → Nat → Nat × Bool × Nat
  | [], num, isnum, k => (num, isnum, k)
  | c :: cs, num, isnum, k =>
    if 48 ≤ c.toNat ∧ c.toNat ≤ 57 then
      if tooLarge num then (0, false, n)
      else parsenum.loop n cs (num * 10 + (c.toNat - 48)) true (k + 1)
    else (num, isnum, k)

/-- The function `parsenum(s, start, end)` of package `fmt`, given the segment
`s[start:end]`: the number, whether there was one, and `newi - start`. -/
def parsenum (seg : List Char) : Nat × Bool × Nat :=
  parsenum.loop seg.length seg 0 false 0

/-- The length in bytes of a text in UTF-8. -/
def utf8Len : List Char → Nat
  | [] => 0
  | c :: cs => c.utf8Size + utf8Len cs

/-- The function `parseArgNumber(format)` of package `fmt`, where `format` starts at an
opening bracket: the index, the width to skip, and whether an index was found. -/
def parseArgNumber (format : List Char) : Int × Nat × Bool :=
  if utf8Len format < 3 then (0, 1, false)
  else
    let i := (format.drop 1).indexOf ']' + 1
    if i < format.length then
      let (width, ok, newi) := parsenum ((format.drop 1).take (i - 1))
      if !ok || newi + 1 ≠ i then (0, i + 1, false)
      else ((width : Int) - 1, i + 1, true)
    else (0, 1, false)

/-- The method `argNumber(argNum, format, i, numArgs)` of package `fmt`, given
`format[i:]` and the current `goodArgNum`: the new `argNum`, `newi - i`, `found`, and the
new `goodArgNum`. -/
def argNumber (argNum : Nat) (format : List Char) (numArgs : Nat) (goodArgNum : Bool) :
    Nat × Nat × Bool × Bool :=
  match format with
  | '[' :: _ =>
    let (index, wid, ok) := parseArgNumber format
    if ok && decide (0 ≤ index) && decide (index < numArgs) then
      (index.toNat, wid, true, goodArgNum)
    else (argNum, wid, ok, false)
  | _ => (argNum, 0, false, goodArgNum)

/-- Whether a character is one of the flags `#`, `0`, `+`, `-` and space. -/
def isFlag (c : Char) : Bool :=
  c = '#' || c = '0' || c = '+' || c = '-' || c = ' '

/-- The width part of one verb, given `format[i:]`, `afterIndex` and `goodArgNum`: the text
written, the characters consumed, and the new `afterIndex` and `goodArgNum`. With no
operand a `*` has no integer to read. -/
def doPrintf.width (s : List Char) (afterIndex goodArgNum : Bool) :
    List Char × Nat × Bool × Bool :=
  match s with
  | '*' :: _ => ("%!(BADWIDTH)".data, 1, false, goodArgNum)
  | _ =>
    let (_, widPresent, k) := parsenum s
    ([], k, afterIndex, if afterIndex && widPresent then false else goodArgNum)

/-- The precision part of one verb, given `format[i:]`, `argNum`, `afterIndex` and
`goodArgNum`: the text written, the characters consumed, and the new `argNum`,
`afterIndex` and `goodArgNum`. -/
def doPrintf.precision (s : List Char) (argNum : Nat) (afterIndex goodArgNum : Bool) :
    List Char × Nat × Nat × Bool × Bool :=
  match s with
  | '.' :: s1 =>
    let good1 := if afterIndex then false else goodArgNum
    let (argNum1, k, afterIndex1, good2) := argNumber argNum s1 0 good1
    match s1.drop k with
    | '*' :: _ => ("%!(BADPREC)".data, 1 + k + 1, argNum1, false, good2)
    | s2 =>
      let (_, _, k2) := parsenum s2
      ([], 1 + k + k2, argNum1, afterIndex1, good2)
  | _ => ([], 0, argNum, afterIndex, goodArgNum)

/-- One verb of `doPrintf` with no operands, given the format after the percent sign: the
text written, the characters consumed, and whether the loop ends here (no verb). -/
def doPrintf.verb (s0 : List Char) : List Char × Nat × Bool :=
  -- flags
  let n0 := (s0.takeWhile isFlag).length
  -- explicit argument index
  let (argNum1, k1, afterIndex1, good1) := argNumber 0 (s0.drop n0) 0 true
  let n1 := n0 + k1
  -- width
  let (out2, k2, afterIndex2, good2) := doPrintf.width (s0.drop n1) afterIndex1 good1
  let n2 := n1 + k2
  -- precision
  let (out3, k3, argNum3, afterIndex3, good3) :=
    doPrintf.precision (s0.drop n2) argNum1 afterIndex2 good2
  let n3 := n2 + k3
  let (_, k4, _, good4) :=
    if !afterIndex3 then argNumber argNum3 (s0.drop n3) 0 good3
    else (argNum3, 0, afterIndex3, good3)
  let n4 := n3 + k4
  match s0.drop n4 with
  | [] => (out2 ++ out3 ++ "%!(NOVERB)".data, n4, true)
  | verb :: _ =>
    if verb = '%' then (out2 ++ out3 ++ ['%'], n4 + 1, false)
    else if !good4 then (out2 ++ out3 ++ "%!".data ++ [verb] ++ "(BADINDEX)".data, n4 + 1, false)
    else (out2 ++ out3 ++ "%!".data ++ [verb] ++ "(MISSING)".data, n4 + 1, false)

/-- The loop of `doPrintf` with no operands: `skip` characters are passed over (they belong
to the verb just handled), other characters are copied up to the next percent sign. -/
def doPrintf.loop : List Char → Nat → List Char
  | [], _ => []
  | _ :: cs, skip + 1 => doPrintf.loop cs skip
  | c :: cs, 0 =>
    if c ≠ '%' then c :: doPrintf.loop cs 0
    else
      match doPrintf.verb cs with
      | (out, _, true) => out
      | (out, n, false) => out ++ doPrintf.loop cs n

/-- The text `doPrintf(format, nil)` leaves in the buffer. -/
def doPrintf (format : String) : String := ⟨doPrintf.loop format.data 0⟩

/-- The call `fmt.Errorf(format)` without operands: no error is wrapped, the result is
`errors.New` of the formatted text. -/
def fmt.Errorf (format : String) : GoError := errors.New (doPrintf format)

/-! ## passwd.go -/

/-- Modelled from the spec: `GetDN` is in a file that is not available. It performs one
directory search filtered on the attribute/value pair and returns the distinguished name
of the single matching entry; a search error, no match or more than one match is an
error. -/
def Conn.GetDN (d : Directory) (c : Conn) (attr value : String) (w : World) :
    Except GoError String × World :=
  let w1 := { w with trace := w.trace ++ [.search c.conn attr value] }
  match d.search w.trace c.conn attr value with
  | .error err => (.error err, w1)
  | .ok [dn] => (.ok dn, w1)
  | .ok _ => (.error (errors.New "Search error: expected exactly one matching entry"), w1)

/-- The function `(*Conn).ModifyDNPassword` of `passwd.go`. -/
def Conn.ModifyDNPassword (d : Directory) (c : Conn) (dn newPasswd : String) (w : World) :
    Option GoError × World :=
  match unicode.UTF16.String .LittleEndian .IgnoreBOM (sprintfQuoted newPasswd) with
  | .error err =>
    (some (.wrap ("Password error: Unable to encode password: " ++ err.Error) err), w)
  | .ok encoded =>
    let req := (NewModifyRequest dn).Replace "unicodePwd" [encoded]
    match ldap.Modify d c.conn req w with
    | (some err, w1) =>
      (some (.wrap ("Password error: Unable to modify password: " ++ err.Error) err), w1)
    | (none, w1) => (none, w1)

/-- The message `UpdatePassword` builds when the modify fails with the error text `s`. -/
def modifyMessage (s : String) : String :=
  if strings.Contains s "0000052D" then "新密码不符合策略要求!"
  else if strings.Contains s "00000056" then "用户名或密码不正确!"
  else if strings.Contains s "00000005" then "该账号不允许修改密码!"
  else "Password error: Unable to modify password: " ++ s

/-- The part of `UpdatePassword` after `defer conn.Conn.Close()`: bind with the old
password, resolve the DN, and modify. -/
def UpdatePassword.body (d : Directory) (conn : Conn) (upn oldPasswd : String)
    (oldEncoded newEncoded : List Nat) (w1 : World) : Option GoError × World :=
  match conn.Bind d upn oldPasswd w1 with
  | ((_, some err), w2) => (some err, w2)
  | ((false, none), w2) => (some (errors.New "Password error: credentials not valid"), w2)
  | ((true, none), w2) =>
    match conn.GetDN d "userPrincipalName" upn w2 with
    | (.error err, w3) => (some err, w3)
    | (.ok dn, w3) =>
      let req := ((NewModifyRequest dn).Delete "unicodePwd" [oldEncoded]).Add
        "unicodePwd" [newEncoded]
      match ldap.Modify d conn.conn req w3 with
      | (some err, w4) => (some (fmt.Errorf (modifyMessage err.Error)), w4)
      | (none, w4) => (none, w4)

/-- The function `UpdatePassword` of `passwd.go`. The method `config.UPN`, which is in a
file that is not available, is the parameter `UPN`. The deferred `Close` runs after the
body, whatever the body returns. -/
def UpdatePassword (d : Directory) (UPN : Config → String → Except GoError String)
    (config : Config) (username oldPasswd newPasswd : String) (w : World) :
    Option GoError × World :=
  match unicode.UTF16.String .LittleEndian .IgnoreBOM (sprintfQuoted oldPasswd) with
  | .error err =>
    (some (.wrap ("Password error: Unable to encode old password: " ++ err.Error) err), w)
  | .ok oldEncoded =>
    match unicode.UTF16.String .LittleEndian .IgnoreBOM (sprintfQuoted newPasswd) with
    | .error err =>
      (some (.wrap ("Password error: Unable to encode new password: " ++ err.Error) err), w)
    | .ok newEncoded =>
      match UPN config username with
      | .error err => (some err, w)
      | .ok upn =>
        match config.Connect d w with
        | (.error err, w1) => (some err, w1)
        | (.ok conn, w1) =>
          let (err, w2) := UpdatePassword.body d conn upn oldPasswd oldEncoded newEncoded w1
          (err, ldap.Close conn.conn w2)

/-! ## Directories used as concrete inputs -/

/-- A directory in which every call succeeds and the search finds the one entry `dn`. -/
def allSucceed (dn : String) : Directory where
  dial := fun _ _ => none
  dialTLS := fun _ _ _ => none
  startTLS := fun _ _ _ => .ok
  bind := fun _ _ _ _ => none
  search := fun _ _ _ _ => .ok [dn]
  modify := fun _ _ _ => none

/-- A `UPN` that takes every user name as it is. -/
def upnSame : Config → String → Except GoError String := fun _ username => .ok username

/-- A configuration for `dc.example.com:389` in the given security mode. -/
def sampleConfig (mode : SecurityType) : Config := ⟨"dc.example.com", 389, mode, none⟩

/-- A directory whose server refuses the StartTLS upgrade (result code 52, unavailable);
the library reports the error and leaves the session as it is. -/
def startTLSRefused : Directory where
  dial := fun _ _ => none
  dialTLS := fun _ _ _ => none
  startTLS := fun _ _ _ => .failed (.ldap 52 "LDAP Result Code 52 \"Unavailable\": ") false
  bind := fun _ _ _ _ => none
  search := fun _ _ _ _ => .ok []
  modify := fun _ _ _ => none

/-- A directory whose modify always fails with the given error; every other call succeeds
and the search finds the one entry `dn`. -/
def modifyFails (dn : String) (err : GoError) : Directory where
  dial := fun _ _ => none
  dialTLS := fun _ _ _ => none
  startTLS := fun _ _ _ => .ok
  bind := fun _ _ _ _ => none
  search := fun _ _ _ _ => .ok [dn]
  modify := fun _ _ _ => some err

/-- The text of a network error on a link-local IPv6 address, whose zone is written after
a percent sign. -/
def brokenPipeText : String :=
  "LDAP Result Code 200 \"Network Error\": write tcp [fe80::1%eth0]:51514->[fe80::2%eth0]:389: write: broken pipe"

/-- The text of a modify error of a directory that refuses the new password. -/
def policyText : String :=
  "LDAP Result Code 19 \"Constraint Violation\": 0000052D: SvcErr: DSID-031A12D2, problem 5003 (WILL_NOT_PERFORM), data 0"

/-- A configuration for a server named by a link-local IPv6 address with its zone. -/
def linkLocalConfig : Config := ⟨"[fe80::2%eth0]", 389, .SecurityNone, none⟩

/-- A directory whose bind always fails with the given error; every other call succeeds. -/
def bindFails (err : GoError) : Directory where
  dial := fun _ _ => none
  dialTLS := fun _ _ _ => none
  startTLS := fun _ _ _ => .ok
  bind := fun _ _ _ _ => some err
  search := fun _ _ _ _ => .ok []
  modify := fun _ _ _ => none

/-- The message `Bind` returns for a locked account. -/
def accountLockedMessage : String := "该账号已锁定, 请联系管理员解锁!"

/-- The text of an invalid-credentials error of a locked account (sub-code 775) whose
diagnostic identifier happens to contain the digits 773. -/
def lockedText773 : String :=
  "LDAP Result Code 49 \"Invalid Credentials\": 80090308: LdapErr: DSID-0C090773, comment: AcceptSecurityContext error, data 775, v2580"

/-- The text of an invalid-credentials error of a locked account (sub-code 775). -/
def lockedText : String :=
  "LDAP Result Code 49 \"Invalid Credentials\": 80090308: LdapErr: DSID-0C090400, comment: AcceptSecurityContext error, data 775, v2580"

/-- The text of an invalid-credentials error with the unknown sub-code 999. -/
def unknownText : String :=
  "LDAP Result Code 49 \"Invalid Credentials\": 80090308: LdapErr: DSID-0C090400, comment: AcceptSecurityContext error, data 999, v2580"

/-- A connection on session 0. -/
def sampleConn : Conn := ⟨0, sampleConfig .SecurityNone⟩

/-! ## Lemmas: strings and formats -/

/-- The substring test holds exactly when the pattern is a contiguous part of the text. -/
theorem containsChars_iff (substr s : List Char) :
    containsChars substr s = true ↔ substr <:+: s := by
  induction s with
  | nil => simp [containsChars, List.isEmpty_iff]
  | cons c cs ih =>
    simp only [containsChars, Bool.or_eq_true, ih, List.isPrefixOf_iff_prefix,
      List.infix_cons_iff]

/-- Passing over `k` characters is continuing at the `k`-th character. -/
theorem doPrintf_loop_skip (cs : List Char) (k : Nat) :
    doPrintf.loop cs k = doPrintf.loop (cs.drop k) 0 := by
  induction cs generalizing k with
  | nil => simp [doPrintf.loop]
  | cons c cs ih =>
    cases k with
    | zero => rfl
    | succ k => simp only [doPrintf.loop, List.drop_succ_cons, ih k]

/-! ## Lemmas: the encoder against the spec's encoding -/

/-- A character is a Unicode scalar value: below U+110000. -/
theorem char_toNat_lt (c : Char) : c.toNat < 0x110000 := by
  have h := c.valid
  simp only [UInt32.isValidChar, Nat.isValidChar] at h
  show c.val.toNat < 0x110000
  omega

/-- The two bytes the encoder writes for a 16-bit unit, once swapped, are the unit's low
and high byte. -/
theorem unit_bytes (u : Nat) (h : u < 0x10000) :
    uint8 u = u % 256 ∧ uint8 (u >>> 8) = u / 256 := by
  refine ⟨rfl, ?_⟩
  simp only [uint8, Nat.shiftRight_eq_div_pow]
  omega

/-- For a rune above U+FFFF, `EncodeRune` gives the surrogate pair of the spec. -/
theorem EncodeRune_eq (r : Nat) (h1 : 0xFFFF < r) (h2 : r < 0x110000) :
    utf16.EncodeRune r
      = (0xD800 + (r - 0x10000) / 0x400, 0xDC00 + (r - 0x10000) % 0x400) := by
  have hcond : ¬ (r < 0x10000 ∨ r > 0x10FFFF) := by omega
  have e1 : ((r - 0x10000) >>> 10) &&& 0x3ff = (r - 0x10000) / 0x400 := by
    have := Nat.and_pow_two_sub_one_eq_mod ((r - 0x10000) >>> 10) 10
    simp only [Nat.shiftRight_eq_div_pow] at this ⊢
    norm_num at this ⊢
    rw [this]
    omega
  have e2 : (r - 0x10000) &&& 0x3ff = (r - 0x10000) % 0x400 := by
    have := Nat.and_pow_two_sub_one_eq_mod (r - 0x10000) 10
    norm_num at this ⊢
    exact this
  simp only [utf16.EncodeRune, hcond, if_false, e1, e2]

/-- The encoder's bytes, swapped for little endian, are the little-endian bytes of the
UTF-16 code units. -/
theorem swap_runes (s : List Char) :
    utf16Encoder.swap (utf16Encoder.runes s) = specLittleEndian (specUTF16 s) := by
  induction s with
  | nil => rfl
  | cons c cs ih =>
    have hlt := char_toNat_lt c
    by_cases h : c.toNat ≤ 0xFFFF
    · have hu := unit_bytes c.toNat (by omega)
      have h' : c.toNat < 0x10000 := by omega
      simp only [utf16Encoder.runes, h, if_true, utf16Encoder.swap, ih, specUTF16,
        specCodeUnits, h', List.singleton_append, specLittleEndian, hu.1, hu.2]
    · have h' : ¬ c.toNat < 0x10000 := by omega
      have he := EncodeRune_eq c.toNat (by omega) hlt
      have hdiv : (c.toNat - 0x10000) / 0x400 < 0x400 := by omega
      have hmod : (c.toNat - 0x10000) % 0x400 < 0x400 := Nat.mod_lt _ (by norm_num)
      have hu1 := unit_bytes (0xD800 + (c.toNat - 0x10000) / 0x400) (by omega)
      have hu2 := unit_bytes (0xDC00 + (c.toNat - 0x10000) % 0x400) (by omega)
      simp only [utf16Encoder.runes, h, if_false, he, utf16Encoder.swap, ih, specUTF16,
        specCodeUnits, h', List.cons_append, List.nil_append, specLittleEndian, hu1.1,
        hu1.2, hu2.1, hu2.2]

/-- The encoder as the program configures it (little endian, no byte order mark), on the
quoted password, gives the value the spec asks for. -/
theorem encoder_eq_spec (passwd : String) :
    unicode.UTF16.String .LittleEndian .IgnoreBOM (sprintfQuoted passwd)
      = .ok (specPasswordValue passwd) := by
  have hq : (sprintfQuoted passwd).data = ['"'] ++ passwd.data ++ ['"'] := by
    simp only [sprintfQuoted, String.data_append]
  simp only [unicode.UTF16.String, utf16Encoder.Transform, BOMPolicy.writeBOM,
    Bool.false_eq_true, if_false, List.nil_append, swap_runes, hq, specPasswordValue]

/-- The code units of a concatenation. -/
theorem specUTF16_append (a b : List Char) :
    specUTF16 (a ++ b) = specUTF16 a ++ specUTF16 b := by
  induction a with
  | nil => rfl
  | cons c cs ih => simp [specUTF16, ih]

/-- Two bytes per code unit. -/
theorem specLittleEndian_length (us : List Nat) :
    (specLittleEndian us).length = 2 * us.length := by
  induction us with
  | nil => rfl
  | cons u us ih => simp [specLittleEndian, ih]; omega

/-! ## Lemmas: the calls of `Connect` and of the body of `UpdatePassword` -/

/-- The calls `Connect` adds to the trace are dials and upgrades: no modify, no close. -/
theorem Connect_trace (d : Directory) (c : Config) (w : World) :
    ∃ cs, (c.Connect d w).2.trace = w.trace ++ cs ∧
      ∀ call ∈ cs, call.isModify = false ∧ call.isClose = false := by
  rcases c with ⟨server, port, mode, roots⟩
  cases mode with
  | SecurityNone =>
    refine ⟨[.dial (server ++ ":" ++ toString port)], ?_, by simp [Call.isModify, Call.isClose]⟩
    cases h : d.dial w.trace (server ++ ":" ++ toString port) <;>
      simp [Config.Connect, Config.addr, ldap.Dial, h]
  | SecurityTLS =>
    refine ⟨[.dialTLS (server ++ ":" ++ toString port) ⟨server, roots, false⟩], ?_,
      by simp [Call.isModify, Call.isClose]⟩
    cases h : d.dialTLS w.trace (server ++ ":" ++ toString port) ⟨server, roots, false⟩ <;>
      simp [Config.Connect, Config.addr, ldap.DialTLS, h]
  | SecurityStartTLS =>
    cases h : d.dial w.trace (server ++ ":" ++ toString port) with
    | some err =>
      exact ⟨[.dial (server ++ ":" ++ toString port)],
        by simp [Config.Connect, Config.addr, ldap.Dial, h],
        by simp [Call.isModify, Call.isClose]⟩
    | none =>
      refine ⟨[.dial (server ++ ":" ++ toString port),
        .startTLS w.next ⟨server, roots, false⟩], ?_, by simp [Call.isModify, Call.isClose]⟩
      cases h2 : d.startTLS (w.trace ++ [.dial (server ++ ":" ++ toString port)]) w.next
          ⟨server, roots, false⟩ <;>
        simp [Config.Connect, Config.addr, ldap.Dial, ldap.StartTLS, h, h2]
  | SecurityInsecureTLS =>
    refine ⟨[.dialTLS (server ++ ":" ++ toString port) ⟨server, none, true⟩], ?_,
      by simp [Call.isModify, Call.isClose]⟩
    cases h : d.dialTLS w.trace (server ++ ":" ++ toString port) ⟨server, none, true⟩ <;>
      simp [Config.Connect, Config.addr, ldap.DialTLS, h]
  | SecurityInsecureStartTLS =>
    cases h : d.dial w.trace (server ++ ":" ++ toString port) with
    | some err =>
      exact ⟨[.dial (server ++ ":" ++ toString port)],
        by simp [Config.Connect, Config.addr, ldap.Dial, h],
        by simp [Call.isModify, Call.isClose]⟩
    | none =>
      refine ⟨[.dial (server ++ ":" ++ toString port),
        .startTLS w.next ⟨server, none, true⟩], ?_, by simp [Call.isModify, Call.isClose]⟩
      cases h2 : d.startTLS (w.trace ++ [.dial (server ++ ":" ++ toString port)]) w.next
          ⟨server, none, true⟩ <;>
        simp [Config.Connect, Config.addr, ldap.Dial, ldap.StartTLS, h, h2]
  | unrecognized raw =>
    exact ⟨[], by simp [Config.Connect], by simp⟩

/-- What `Bind` does to the state: nothing for the empty password, else one bind call. -/
theorem Bind_state (d : Directory) (c : Conn) (upn password : String) (w : World) :
    (password = "" ∧ c.Bind d upn password w = ((false, none), w)) ∨
    (password ≠ "" ∧ (c.Bind d upn password w).2
      = { w with trace := w.trace ++ [.bind c.conn upn password] }) := by
  by_cases hpw : password = ""
  · exact Or.inl ⟨hpw, by simp [Conn.Bind, hpw]⟩
  · refine Or.inr ⟨hpw, ?_⟩
    cases hb : d.bind w.trace c.conn upn password with
    | none => simp [Conn.Bind, ldap.Bind, hpw, hb]
    | some err =>
      cases err with
      | ldap code text =>
        by_cases hc : code = LDAPResultInvalidCredentials <;>
          simp [Conn.Bind, ldap.Bind, hpw, hb, hc]
      | plain text => simp [Conn.Bind, ldap.Bind, hpw, hb]
      | wrap text inner => simp [Conn.Bind, ldap.Bind, hpw, hb]

/-- A result of `Bind` is either authenticated, or false with or without an error: true
never comes with an error. -/
theorem Bind_result (d : Directory) (c : Conn) (upn password : String) (w : World) :
    (c.Bind d upn password w).1 = (true, none) ∨
    (c.Bind d upn password w).1 = (false, none) ∨
    ∃ err, (c.Bind d upn password w).1 = (false, some err) := by
  by_cases hpw : password = ""
  · exact Or.inr (Or.inl (by simp [Conn.Bind, hpw]))
  · cases hb : d.bind w.trace c.conn upn password with
    | none => exact Or.inl (by simp [Conn.Bind, ldap.Bind, hpw, hb])
    | some err =>
      refine Or.inr (Or.inr ?_)
      cases err with
      | ldap code text =>
        by_cases hc : code = LDAPResultInvalidCredentials <;>
          simp [Conn.Bind, ldap.Bind, hpw, hb, hc]
      | plain text => simp [Conn.Bind, ldap.Bind, hpw, hb]
      | wrap text inner => simp [Conn.Bind, ldap.Bind, hpw, hb]

/-- What `GetDN` does to the state: one search call. -/
theorem GetDN_state (d : Directory) (c : Conn) (attr value : String) (w : World) :
    (c.GetDN d attr value w).2 = { w with trace := w.trace ++ [.search c.conn attr value] } := by
  unfold Conn.GetDN
  split <;> rfl

/-- The paths of the body of `UpdatePassword`. Either the bind does not authenticate: the
body returns an error in the state the bind left. Or it authenticates and the DN is not
resolved: the body returns the error in the state the search left. Or the DN is resolved:
the body issues the delete-then-add modify for that DN and returns nil or the error built
from the modify error. -/
theorem body_cases (d : Directory) (conn : Conn) (upn oldPasswd : String)
    (oldEncoded newEncoded : List Nat) (w1 : World) :
    ((conn.Bind d upn oldPasswd w1).1 ≠ (true, none) ∧
      (UpdatePassword.body d conn upn oldPasswd oldEncoded newEncoded w1).1 ≠ none ∧
      (UpdatePassword.body d conn upn oldPasswd oldEncoded newEncoded w1).2
        = (conn.Bind d upn oldPasswd w1).2) ∨
    ((conn.Bind d upn oldPasswd w1).1 = (true, none) ∧
      ∃ err, (conn.GetDN d "userPrincipalName" upn (conn.Bind d upn oldPasswd w1).2).1
          = .error err ∧
        (UpdatePassword.body d conn upn oldPasswd oldEncoded newEncoded w1).1 = some err ∧
        (UpdatePassword.body d conn upn oldPasswd oldEncoded newEncoded w1).2
          = (conn.GetDN d "userPrincipalName" upn (conn.Bind d upn oldPasswd w1).2).2) ∨
    ((conn.Bind d upn oldPasswd w1).1 = (true, none) ∧
      ∃ dn, (conn.GetDN d "userPrincipalName" upn (conn.Bind d upn oldPasswd w1).2).1
          = .ok dn ∧
        (UpdatePassword.body d conn upn oldPasswd oldEncoded newEncoded w1).1
          = (d.modify
              (conn.GetDN d "userPrincipalName" upn (conn.Bind d upn oldPasswd w1).2).2.trace
              conn.conn
              ⟨dn, [⟨.DeleteAttribute, "unicodePwd", [oldEncoded]⟩,
                ⟨.AddAttribute, "unicodePwd", [newEncoded]⟩]⟩).map
            (fun err => fmt.Errorf (modifyMessage err.Error)) ∧
        (UpdatePassword.body d conn upn oldPasswd oldEncoded newEncoded w1).2
          = { (conn.GetDN d "userPrincipalName" upn (conn.Bind d upn oldPasswd w1).2).2 with
              trace :=
                (conn.GetDN d "userPrincipalName" upn
                  (conn.Bind d upn oldPasswd w1).2).2.trace ++
                [.modify conn.conn
                  ⟨dn, [⟨.DeleteAttribute, "unicodePwd", [oldEncoded]⟩,
                    ⟨.AddAttribute, "unicodePwd", [newEncoded]⟩]⟩] }) := by
  unfold UpdatePassword.body
  rcases hB : conn.Bind d upn oldPasswd w1 with ⟨⟨status, e⟩, w2⟩
  cases e with
  | some err => exact Or.inl (by simp)
  | none =>
    cases status with
    | false => exact Or.inl (by simp)
    | true =>
      rcases hG : conn.GetDN d "userPrincipalName" upn w2 with ⟨r, w3⟩
      cases r with
      | error err => exact Or.inr (Or.inl (by simp [hG]))
      | ok dn =>
        refine Or.inr (Or.inr ⟨rfl, dn, ?_⟩)
        cases hm : d.modify w3.trace conn.conn
          ⟨dn, [⟨.DeleteAttribute, "unicodePwd", [oldEncoded]⟩,
            ⟨.AddAttribute, "unicodePwd", [newEncoded]⟩]⟩ <;>
          simp [hG, ldap.Modify, NewModifyRequest, ModifyRequest.Delete, ModifyRequest.Add, hm]

/-- The trace after `Bind`: the trace before, with at most one bind call added. -/
theorem Bind_trace (d : Directory) (c : Conn) (upn password : String) (w : World) :
    ∃ cs, (c.Bind d upn password w).2.trace = w.trace ++ cs ∧
      ∀ call ∈ cs, call.isModify = false ∧ call.isClose = false := by
  rcases Bind_state d c upn password w with ⟨_, h⟩ | ⟨_, h⟩
  · exact ⟨[], by simp [h], by simp⟩
  · exact ⟨[.bind c.conn upn password], by simp [h], by simp [Call.isModify, Call.isClose]⟩

/-- The calls of the body of `UpdatePassword`: none is a close, and every modify among
them is the delete-then-add of the two encoded passwords on `unicodePwd`. -/
theorem body_trace (d : Directory) (conn : Conn) (upn oldPasswd : String)
    (oldEncoded newEncoded : List Nat) (w1 : World) :
    ∃ cs, (UpdatePassword.body d conn upn oldPasswd oldEncoded newEncoded w1).2.trace
        = w1.trace ++ cs ∧
      ∀ call ∈ cs, call.isClose = false ∧
        ∀ session req, call = .modify session req →
          req.Changes = [⟨.DeleteAttribute, "unicodePwd", [oldEncoded]⟩,
            ⟨.AddAttribute, "unicodePwd", [newEncoded]⟩] := by
  obtain ⟨bs, hbs, hbs2⟩ := Bind_trace d conn upn oldPasswd w1
  have hG := GetDN_state d conn "userPrincipalName" upn (conn.Bind d upn oldPasswd w1).2
  rcases body_cases d conn upn oldPasswd oldEncoded newEncoded w1 with
    ⟨_, _, h2⟩ | ⟨_, err, _, _, h2⟩ | ⟨_, dn, _, _, h2⟩
  · refine ⟨bs, by rw [h2, hbs], ?_⟩
    intro call hc
    refine ⟨(hbs2 call hc).2, ?_⟩
    intro session req he
    have := (hbs2 call hc).1
    simp [he, Call.isModify] at this
  · refine ⟨bs ++ [.search conn.conn "userPrincipalName" upn], ?_, ?_⟩
    · rw [h2, hG]
      simp [hbs]
    · intro call hc
      simp only [List.mem_append, List.mem_singleton] at hc
      rcases hc with hc | rfl
      · refine ⟨(hbs2 call hc).2, ?_⟩
        intro session req he
        have := (hbs2 call hc).1
        simp [he, Call.isModify] at this
      · simp [Call.isClose]
  · refine ⟨bs ++ [.search conn.conn "userPrincipalName" upn,
      .modify conn.conn ⟨dn, [⟨.DeleteAttribute, "unicodePwd", [oldEncoded]⟩,
        ⟨.AddAttribute, "unicodePwd", [newEncoded]⟩]⟩], ?_, ?_⟩
    · rw [h2, hG]
      simp [hbs]
    · intro call hc
      simp only [List.mem_append, List.mem_cons, List.mem_singleton, List.not_mem_nil,
        or_false] at hc
      rcases hc with hc | rfl | rfl
      · refine ⟨(hbs2 call hc).2, ?_⟩
        intro session req he
        have := (hbs2 call hc).1
        simp [he, Call.isModify] at this
      · simp [Call.isClose]
      · refine ⟨rfl, ?_⟩
        intro session req he
        simp only [Call.modify.injEq] at he
        rw [← he.2]

/-- When the bind does not authenticate, the body returns an error and adds no modify. -/
theorem body_unauthenticated (d : Directory) (conn : Conn) (upn oldPasswd : String)
    (oldEncoded newEncoded : List Nat) (w1 : World)
    (hB : (conn.Bind d upn oldPasswd w1).1 ≠ (true, none)) :
    (UpdatePassword.body d conn upn oldPasswd oldEncoded newEncoded w1).1 ≠ none ∧
    ∃ cs, (UpdatePassword.body d conn upn oldPasswd oldEncoded newEncoded w1).2.trace
        = w1.trace ++ cs ∧ ∀ call ∈ cs, call.isModify = false := by
  obtain ⟨bs, hbs, hbs2⟩ := Bind_trace d conn upn oldPasswd w1
  rcases body_cases d conn upn oldPasswd oldEncoded newEncoded w1 with
    ⟨_, h1, h2⟩ | ⟨h, _⟩ | ⟨h, _⟩
  · exact ⟨h1, bs, by rw [h2, hbs], fun call hc => (hbs2 call hc).1⟩
  · exact absurd h hB
  · exact absurd h hB

/-- When bind, DN resolution and modify succeed, the body returns nil and has added the
bind, the search and the one modify. -/
theorem body_success (d : Directory) (conn : Conn) (upn oldPasswd dn : String)
    (oldEncoded newEncoded : List Nat) (w1 w2 w3 : World)
    (hB : conn.Bind d upn oldPasswd w1 = ((true, none), w2))
    (hG : conn.GetDN d "userPrincipalName" upn w2 = (.ok dn, w3))
    (hM : d.modify w3.trace conn.conn
      ⟨dn, [⟨.DeleteAttribute, "unicodePwd", [oldEncoded]⟩,
        ⟨.AddAttribute, "unicodePwd", [newEncoded]⟩]⟩ = none) :
    (UpdatePassword.body d conn upn oldPasswd oldEncoded newEncoded w1).1 = none ∧
    (UpdatePassword.body d conn upn oldPasswd oldEncoded newEncoded w1).2.trace
      = w1.trace ++ [.bind conn.conn upn oldPasswd,
          .search conn.conn "userPrincipalName" upn,
          .modify conn.conn ⟨dn, [⟨.DeleteAttribute, "unicodePwd", [oldEncoded]⟩,
            ⟨.AddAttribute, "unicodePwd", [newEncoded]⟩]⟩] := by
  have hw2 : w2 = { w1 with trace := w1.trace ++ [.bind conn.conn upn oldPasswd] } := by
    rcases Bind_state d conn upn oldPasswd w1 with ⟨_, h⟩ | ⟨_, h⟩
    · rw [hB] at h
      simp at h
    · rw [hB] at h
      exact h
  have hw3 := GetDN_state d conn "userPrincipalName" upn w2
  rw [hG] at hw3
  simp only at hw3
  rcases body_cases d conn upn oldPasswd oldEncoded newEncoded w1 with
    ⟨h, _⟩ | ⟨_, err, h, _⟩ | ⟨_, dn2, h, h1, h2⟩
  · rw [hB] at h
    exact absurd rfl h
  · rw [hB] at h
    simp only [hG] at h
    cases h
  · rw [hB] at h h1 h2
    simp only [hG, Except.ok.injEq] at h h1 h2
    subst h
    rw [hM] at h1
    refine ⟨h1, ?_⟩
    rw [h2, hw3, hw2]
    simp

/-- The calls issued since `w0`, when the trace is the trace of `w0` followed by `cs`. -/
theorem since_of_trace (w w0 : World) (cs : List Call) (h : w.trace = w0.trace ++ cs) :
    w.since w0 = cs := by
  simp [World.since, h]

/-- After a successful `Connect`, `UpdatePassword` is its body followed by the deferred
close, with the two passwords encoded as the spec asks. -/
theorem UpdatePassword_connected (d : Directory)
    (UPN : Config → String → Except GoError String) (config : Config)
    (username oldPasswd newPasswd upn : String) (conn : Conn) (w w1 : World)
    (hU : UPN config username = .ok upn) (hC : config.Connect d w = (.ok conn, w1)) :
    UpdatePassword d UPN config username oldPasswd newPasswd w
      = ((UpdatePassword.body d conn upn oldPasswd (specPasswordValue oldPasswd)
            (specPasswordValue newPasswd) w1).1,
          ldap.Close conn.conn
            (UpdatePassword.body d conn upn oldPasswd (specPasswordValue oldPasswd)
              (specPasswordValue newPasswd) w1).2) := by
  simp only [UpdatePassword, encoder_eq_spec, hU, hC]

/-- The calls of `UpdatePassword`: every modify among them is the delete-then-add of the
two encoded passwords on `unicodePwd`. -/
theorem UpdatePassword_trace (d : Directory)
    (UPN : Config → String → Except GoError String) (config : Config)
    (username oldPasswd newPasswd : String) (w : World) :
    ∃ cs, (UpdatePassword d UPN config username oldPasswd newPasswd w).2.trace
        = w.trace ++ cs ∧
      ∀ call ∈ cs, ∀ session req, call = .modify session req →
        req.Changes = [⟨.DeleteAttribute, "unicodePwd", [specPasswordValue oldPasswd]⟩,
          ⟨.AddAttribute, "unicodePwd", [specPasswordValue newPasswd]⟩] := by
  obtain ⟨cs1, hcs1, hcs1'⟩ := Connect_trace d config w
  cases hU : UPN config username with
  | error err =>
    exact ⟨[], by simp [UpdatePassword, encoder_eq_spec, hU], by simp⟩
  | ok upn =>
    rcases hC : config.Connect d w with ⟨r, w1⟩
    rw [hC] at hcs1
    simp only at hcs1
    cases r with
    | error err =>
      refine ⟨cs1, by simp [UpdatePassword, encoder_eq_spec, hU, hC, hcs1], ?_⟩
      intro call hc session req he
      have := (hcs1' call hc).1
      simp [he, Call.isModify] at this
    | ok conn =>
      obtain ⟨cs2, hcs2, hcs2'⟩ := body_trace d conn upn oldPasswd
        (specPasswordValue oldPasswd) (specPasswordValue newPasswd) w1
      refine ⟨cs1 ++ cs2 ++ [.close conn.conn], ?_, ?_⟩
      · rw [UpdatePassword_connected d UPN config username oldPasswd newPasswd upn conn w w1
          hU hC]
        simp only [ldap.Close, hcs2, hcs1]
        simp
      · intro call hc session req he
        simp only [List.mem_append, List.mem_singleton] at hc
        rcases hc with (hc | hc) | hc
        · have := (hcs1' call hc).1
          simp [he, Call.isModify] at this
        · exact (hcs2' call hc).2 session req he
        · rw [hc] at he
          cases he

/-- A format without a percent sign is copied as it is. -/
theorem doPrintf_loop_no_percent (cs : List Char) (h : '%' ∉ cs) :
    doPrintf.loop cs 0 = cs := by
  induction cs with
  | nil => rfl
  | cons c cs ih =>
    simp only [List.mem_cons, not_or] at h
    have hc : c ≠ '%' := fun e => h.1 e.symm
    simp only [doPrintf.loop, hc, ne_eq, not_false_eq_true, if_true, ih h.2]

/-! ## Theorems: `Bind` -/

/-- C1: for every connection and principal name, `Bind` with the empty password returns
false with no error, leaves the state as it was, and issues no call on the directory
connection, so no bind round-trip. -/
theorem Bind_empty_password (d : Directory) (c : Conn) (upn : String) (w : World) :
    (c.Bind d upn "" w).1 = (false, none) ∧ (c.Bind d upn "" w).2 = w ∧
      (c.Bind d upn "" w).2.since w = [] := by
  simp [Conn.Bind, World.since]

/-- C5, as stated, fails: for a locked account whose error text also contains 773, `Bind`
answers with the must-change-password message, not the account-locked one. -/
theorem Bind_775_counterexample :
    "secret" ≠ "" ∧
    (bindFails (.ldap LDAPResultInvalidCredentials lockedText773)).bind
      World.init.trace sampleConn.conn "u@example.com" "secret"
      = some (.ldap LDAPResultInvalidCredentials lockedText773) ∧
    strings.Contains lockedText773 "775" = true ∧
    (sampleConn.Bind (bindFails (.ldap LDAPResultInvalidCredentials lockedText773))
      "u@example.com" "secret" World.init).1
      = (false, some (errors.New "该账号必须修改密码后才能使用")) ∧
    (sampleConn.Bind (bindFails (.ldap LDAPResultInvalidCredentials lockedText773))
      "u@example.com" "secret" World.init).1
      ≠ (false, some (errors.New accountLockedMessage)) := by
  decide

/-- C5, amended: for every non-empty password, when the bind fails with an
invalid-credentials error whose text contains 775 and contains neither 52e nor 773,
`Bind` returns false with the error carrying the account-locked message. -/
theorem Bind_account_locked (d : Directory) (c : Conn) (upn password text : String)
    (w : World) (hpw : password ≠ "")
    (herr : d.bind w.trace c.conn upn password
      = some (.ldap LDAPResultInvalidCredentials text))
    (h775 : strings.Contains text "775" = true)
    (h52e : strings.Contains text "52e" = false)
    (h773 : strings.Contains text "773" = false) :
    (c.Bind d upn password w).1 = (false, some (errors.New accountLockedMessage)) := by
  simp [Conn.Bind, ldap.Bind, hpw, herr, bindMessage, GoError.Error, h775, h52e, h773,
    accountLockedMessage]

/-- Witness of C5 amended: a locked account with the usual error text. -/
theorem Bind_account_locked_witness :
    (sampleConn.Bind (bindFails (.ldap LDAPResultInvalidCredentials lockedText))
      "u@example.com" "secret" World.init).1
      = (false, some (errors.New accountLockedMessage)) :=
  Bind_account_locked (bindFails (.ldap LDAPResultInvalidCredentials lockedText)) sampleConn
    "u@example.com" "secret" lockedText World.init (by decide) rfl (by decide) (by decide)
    (by decide)

/-- C6: for every non-empty password, when the bind fails with an invalid-credentials
error whose text contains none of 52e, 773, 775, 532, 533, 701, `Bind` returns false with
an error whose message is exactly that text. -/
theorem Bind_unknown_subcode (d : Directory) (c : Conn) (upn password text : String)
    (w : World) (hpw : password ≠ "")
    (herr : d.bind w.trace c.conn upn password
      = some (.ldap LDAPResultInvalidCredentials text))
    (h52e : strings.Contains text "52e" = false)
    (h773 : strings.Contains text "773" = false)
    (h775 : strings.Contains text "775" = false)
    (h532 : strings.Contains text "532" = false)
    (h533 : strings.Contains text "533" = false)
    (h701 : strings.Contains text "701" = false) :
    (c.Bind d upn password w).1 = (false, some (errors.New text)) ∧
      (errors.New text).Error = text := by
  refine ⟨?_, rfl⟩
  simp [Conn.Bind, ldap.Bind, hpw, herr, bindMessage, GoError.Error, h775, h52e, h773,
    h532, h533, h701]

/-- Witness of C6: the error text with sub-code 999 comes back unchanged. -/
theorem Bind_unknown_subcode_witness :
    (sampleConn.Bind (bindFails (.ldap LDAPResultInvalidCredentials unknownText))
      "u@example.com" "secret" World.init).1 = (false, some (errors.New unknownText)) ∧
      (errors.New unknownText).Error = unknownText :=
  Bind_unknown_subcode (bindFails (.ldap LDAPResultInvalidCredentials unknownText))
    sampleConn "u@example.com" "secret" unknownText World.init (by decide) rfl (by decide)
    (by decide) (by decide) (by decide) (by decide) (by decide)

/-! ## Theorems: `Connect` -/

/-- C7: for every configuration, `Connect` makes exactly the library calls of its mode.
None: one plaintext dial. TLS: one TLS dial with server name `Server`, trust roots
`RootCAs` and validation on. StartTLS: a plaintext dial, then, if it succeeded, the upgrade
with the same TLS settings. InsecureTLS and InsecureStartTLS: the same dial or dial and
upgrade with validation off. In every mode, a TLS configuration handed to the library has
validation off exactly when the mode is one of the two insecure ones. -/
theorem Connect_security_modes (d : Directory) (server : String) (port : Nat)
    (roots : Option CertPool) (w : World) :
    ((Config.Connect d ⟨server, port, .SecurityNone, roots⟩ w).2.since w
      = [.dial (server ++ ":" ++ toString port)]) ∧
    ((Config.Connect d ⟨server, port, .SecurityTLS, roots⟩ w).2.since w
      = [.dialTLS (server ++ ":" ++ toString port) ⟨server, roots, false⟩]) ∧
    ((Config.Connect d ⟨server, port, .SecurityStartTLS, roots⟩ w).2.since w
      = .dial (server ++ ":" ++ toString port) ::
        (if d.dial w.trace (server ++ ":" ++ toString port) = none
          then [.startTLS w.next ⟨server, roots, false⟩] else [])) ∧
    ((Config.Connect d ⟨server, port, .SecurityInsecureTLS, roots⟩ w).2.since w
      = [.dialTLS (server ++ ":" ++ toString port) ⟨server, none, true⟩]) ∧
    ((Config.Connect d ⟨server, port, .SecurityInsecureStartTLS, roots⟩ w).2.since w
      = .dial (server ++ ":" ++ toString port) ::
        (if d.dial w.trace (server ++ ":" ++ toString port) = none
          then [.startTLS w.next ⟨server, none, true⟩] else [])) ∧
    (∀ (mode : SecurityType) (call : Call) (cfg : TLSConfig),
      call ∈ (Config.Connect d ⟨server, port, mode, roots⟩ w).2.since w →
      call.tlsConfig = some cfg →
      (cfg.InsecureSkipVerify = true ↔
        (mode = .SecurityInsecureTLS ∨ mode = .SecurityInsecureStartTLS))) := by
  have hNone : (Config.Connect d ⟨server, port, .SecurityNone, roots⟩ w).2.since w
      = [.dial (server ++ ":" ++ toString port)] := by
    cases h : d.dial w.trace (server ++ ":" ++ toString port) <;>
      simp [Config.Connect, Config.addr, ldap.Dial, World.since, h]
  have hTLS : (Config.Connect d ⟨server, port, .SecurityTLS, roots⟩ w).2.since w
      = [.dialTLS (server ++ ":" ++ toString port) ⟨server, roots, false⟩] := by
    cases h : d.dialTLS w.trace (server ++ ":" ++ toString port) ⟨server, roots, false⟩ <;>
      simp [Config.Connect, Config.addr, ldap.DialTLS, World.since, h]
  have hStart : (Config.Connect d ⟨server, port, .SecurityStartTLS, roots⟩ w).2.since w
      = .dial (server ++ ":" ++ toString port) ::
        (if d.dial w.trace (server ++ ":" ++ toString port) = none
          then [.startTLS w.next ⟨server, roots, false⟩] else []) := by
    cases h : d.dial w.trace (server ++ ":" ++ toString port) with
    | some err => simp [Config.Connect, Config.addr, ldap.Dial, World.since, h]
    | none =>
      cases h2 : d.startTLS (w.trace ++ [.dial (server ++ ":" ++ toString port)]) w.next
          ⟨server, roots, false⟩ <;>
        simp [Config.Connect, Config.addr, ldap.Dial, ldap.StartTLS, World.since, h, h2]
  have hITLS : (Config.Connect d ⟨server, port, .SecurityInsecureTLS, roots⟩ w).2.since w
      = [.dialTLS (server ++ ":" ++ toString port) ⟨server, none, true⟩] := by
    cases h : d.dialTLS w.trace (server ++ ":" ++ toString port) ⟨server, none, true⟩ <;>
      simp [Config.Connect, Config.addr, ldap.DialTLS, World.since, h]
  have hIStart :
      (Config.Connect d ⟨server, port, .SecurityInsecureStartTLS, roots⟩ w).2.since w
      = .dial (server ++ ":" ++ toString port) ::
        (if d.dial w.trace (server ++ ":" ++ toString port) = none
          then [.startTLS w.next ⟨server, none, true⟩] else []) := by
    cases h : d.dial w.trace (server ++ ":" ++ toString port) with
    | some err => simp [Config.Connect, Config.addr, ldap.Dial, World.since, h]
    | none =>
      cases h2 : d.startTLS (w.trace ++ [.dial (server ++ ":" ++ toString port)]) w.next
          ⟨server, none, true⟩ <;>
        simp [Config.Connect, Config.addr, ldap.Dial, ldap.StartTLS, World.since, h, h2]
  refine ⟨hNone, hTLS, hStart, hITLS, hIStart, ?_⟩
  intro mode call cfg hmem hcfg
  cases mode with
  | SecurityNone =>
    rw [hNone] at hmem
    simp only [List.mem_singleton] at hmem
    subst hmem
    simp [Call.tlsConfig] at hcfg
  | SecurityTLS =>
    rw [hTLS] at hmem
    simp only [List.mem_singleton] at hmem
    subst hmem
    simp only [Call.tlsConfig, Option.some.injEq] at hcfg
    subst hcfg
    simp
  | SecurityStartTLS =>
    rw [hStart] at hmem
    simp only [List.mem_cons] at hmem
    rcases hmem with rfl | hmem
    · simp [Call.tlsConfig] at hcfg
    · split at hmem
      · simp only [List.mem_singleton] at hmem
        subst hmem
        simp only [Call.tlsConfig, Option.some.injEq] at hcfg
        subst hcfg
        simp
      · simp at hmem
  | SecurityInsecureTLS =>
    rw [hITLS] at hmem
    simp only [List.mem_singleton] at hmem
    subst hmem
    simp only [Call.tlsConfig, Option.some.injEq] at hcfg
    subst hcfg
    simp
  | SecurityInsecureStartTLS =>
    rw [hIStart] at hmem
    simp only [List.mem_cons] at hmem
    rcases hmem with rfl | hmem
    · simp [Call.tlsConfig] at hcfg
    · split at hmem
      · simp only [List.mem_singleton] at hmem
        subst hmem
        simp only [Call.tlsConfig, Option.some.injEq] at hcfg
        subst hcfg
        simp
      · simp at hmem
  | unrecognized raw =>
    simp [Config.Connect, World.since] at hmem

/-- C10, evaluated: in mode StartTLS, when the dial succeeds and the server refuses the
upgrade, `Connect` returns its connection error while session 0, which it dialed, is still
open and no close was issued; `UpdatePassword` then returns that error with the session
still open. -/
theorem Connect_StartTLS_failure_leaves_session_open :
    (Config.Connect startTLSRefused (sampleConfig .SecurityStartTLS) World.init).1
      = .error (.wrap "Connection error: LDAP Result Code 52 \"Unavailable\": "
          (.ldap 52 "LDAP Result Code 52 \"Unavailable\": ")) ∧
    (Config.Connect startTLSRefused (sampleConfig .SecurityStartTLS) World.init).2.live = [0] ∧
    (Config.Connect startTLSRefused (sampleConfig .SecurityStartTLS) World.init).2.trace
      = [.dial "dc.example.com:389", .startTLS 0 ⟨"dc.example.com", none, false⟩] ∧
    (UpdatePassword startTLSRefused upnSame (sampleConfig .SecurityStartTLS) "u@example.com"
      "old" "new" World.init).2.live = [0] := by
  decide

/-! ## Theorems: the password value -/

/-- C2: for every plaintext password, the encoder as the program calls it returns the
UTF-16 little-endian bytes, without byte order mark, of the plaintext between two double
quotes; `ModifyDNPassword` issues one modify that replaces `unicodePwd` by that value of
the new password; every modify `UpdatePassword` issues deletes that value of the old
password and adds that value of the new one; the value has two bytes per UTF-16 code unit
of the plaintext plus four; a character above U+FFFF gives a high and a low surrogate that
decode to it; and for `hello` the value is the fourteen bytes
22 00 68 00 65 00 6C 00 6C 00 6F 00 22 00. -/
theorem password_value_utf16le_quoted (d : Directory)
    (UPN : Config → String → Except GoError String) (c : Conn) (config : Config)
    (dn username oldPasswd newPasswd : String) (w : World) :
    unicode.UTF16.String .LittleEndian .IgnoreBOM (sprintfQuoted newPasswd)
      = .ok (specPasswordValue newPasswd) ∧
    (c.ModifyDNPassword d dn newPasswd w).2.since w
      = [.modify c.conn
          ⟨dn, [⟨.ReplaceAttribute, "unicodePwd", [specPasswordValue newPasswd]⟩]⟩] ∧
    (∀ session req, Call.modify session req ∈
        (UpdatePassword d UPN config username oldPasswd newPasswd w).2.since w →
      req.Changes = [⟨.DeleteAttribute, "unicodePwd", [specPasswordValue oldPasswd]⟩,
        ⟨.AddAttribute, "unicodePwd", [specPasswordValue newPasswd]⟩]) ∧
    (specPasswordValue newPasswd).length = 2 * (specUTF16 newPasswd.data).length + 4 ∧
    (∀ ch : Char, 0xFFFF < ch.toNat →
      ∃ hi lo, specCodeUnits ch = [hi, lo] ∧ 0xD800 ≤ hi ∧ hi ≤ 0xDBFF ∧
        0xDC00 ≤ lo ∧ lo ≤ 0xDFFF ∧
        0x10000 + (hi - 0xD800) * 0x400 + (lo - 0xDC00) = ch.toNat) ∧
    specPasswordValue "hello"
      = [0x22, 0x00, 0x68, 0x00, 0x65, 0x00, 0x6C, 0x00, 0x6C, 0x00, 0x6F, 0x00,
          0x22, 0x00] := by
  refine ⟨encoder_eq_spec newPasswd, ?_, ?_, ?_, ?_, by decide⟩
  · apply since_of_trace
    cases hm : d.modify w.trace c.conn
      ⟨dn, [⟨.ReplaceAttribute, "unicodePwd", [specPasswordValue newPasswd]⟩]⟩ <;>
      simp [Conn.ModifyDNPassword, encoder_eq_spec, ldap.Modify, NewModifyRequest,
        ModifyRequest.Replace, hm]
  · intro session req hmem
    obtain ⟨cs, hcs, hcs'⟩ := UpdatePassword_trace d UPN config username oldPasswd newPasswd w
    rw [since_of_trace _ _ cs hcs] at hmem
    exact hcs' _ hmem session req rfl
  · simp only [specPasswordValue, specLittleEndian_length, specUTF16_append]
    simp [specUTF16, specCodeUnits]
    omega
  · intro ch hch
    have hlt := char_toNat_lt ch
    have hn : ¬ ch.toNat < 0x10000 := by omega
    refine ⟨0xD800 + (ch.toNat - 0x10000) / 0x400, 0xDC00 + (ch.toNat - 0x10000) % 0x400,
      by simp only [specCodeUnits, hn, if_false], ?_⟩
    omega

/-! ## Theorems: `UpdatePassword` -/

/-- C3: in every run of `UpdatePassword` in which connect, the bind with the old password,
the DN resolution and the modify succeed, `UpdatePassword` returns nil and the modify
operations it issued are exactly one: on the connection, for the resolved DN, a delete of
the encoded old password followed by an add of the encoded new password on `unicodePwd`;
no change of a modify it issued is a replace. -/
theorem UpdatePassword_success_one_delete_add (d : Directory)
    (UPN : Config → String → Except GoError String) (config : Config)
    (username oldPasswd newPasswd upn dn : String) (conn : Conn) (w w1 w2 w3 : World)
    (hU : UPN config username = .ok upn)
    (hC : config.Connect d w = (.ok conn, w1))
    (hB : conn.Bind d upn oldPasswd w1 = ((true, none), w2))
    (hG : conn.GetDN d "userPrincipalName" upn w2 = (.ok dn, w3))
    (hM : d.modify w3.trace conn.conn
      ⟨dn, [⟨.DeleteAttribute, "unicodePwd", [specPasswordValue oldPasswd]⟩,
        ⟨.AddAttribute, "unicodePwd", [specPasswordValue newPasswd]⟩]⟩ = none) :
    (UpdatePassword d UPN config username oldPasswd newPasswd w).1 = none ∧
    ((UpdatePassword d UPN config username oldPasswd newPasswd w).2.since w).filter
        Call.isModify
      = [.modify conn.conn
          ⟨dn, [⟨.DeleteAttribute, "unicodePwd", [specPasswordValue oldPasswd]⟩,
            ⟨.AddAttribute, "unicodePwd", [specPasswordValue newPasswd]⟩]⟩] ∧
    (∀ session req, Call.modify session req ∈
        (UpdatePassword d UPN config username oldPasswd newPasswd w).2.since w →
      ∀ ch ∈ req.Changes, ch.Op ≠ .ReplaceAttribute) := by
  obtain ⟨cs1, hcs1, hcs1'⟩ := Connect_trace d config w
  rw [hC] at hcs1
  simp only at hcs1
  obtain ⟨hr, ht⟩ := body_success d conn upn oldPasswd dn (specPasswordValue oldPasswd)
    (specPasswordValue newPasswd) w1 w2 w3 hB hG hM
  have hfil : cs1.filter Call.isModify = [] := by
    rw [List.filter_eq_nil_iff]
    intro a ha
    simp [(hcs1' a ha).1]
  have hsince : (UpdatePassword d UPN config username oldPasswd newPasswd w).2.since w
      = cs1 ++ [.bind conn.conn upn oldPasswd, .search conn.conn "userPrincipalName" upn,
          .modify conn.conn
            ⟨dn, [⟨.DeleteAttribute, "unicodePwd", [specPasswordValue oldPasswd]⟩,
              ⟨.AddAttribute, "unicodePwd", [specPasswordValue newPasswd]⟩]⟩,
          .close conn.conn] := by
    apply since_of_trace
    rw [UpdatePassword_connected d UPN config username oldPasswd newPasswd upn conn w w1
      hU hC]
    simp only [ldap.Close, ht, hcs1]
    simp
  refine ⟨?_, ?_, ?_⟩
  · rw [UpdatePassword_connected d UPN config username oldPasswd newPasswd upn conn w w1
      hU hC]
    exact hr
  · rw [hsince, List.filter_append, hfil]
    simp [List.filter, Call.isModify]
  · intro session req hmem ch hch
    rw [hsince] at hmem
    simp only [List.mem_append, List.mem_cons, List.mem_singleton, List.not_mem_nil,
      or_false] at hmem
    rcases hmem with hmem | hmem | hmem | hmem | hmem
    · have := (hcs1' _ hmem).1
      simp [Call.isModify] at this
    · cases hmem
    · cases hmem
    · simp only [Call.modify.injEq] at hmem
      rw [hmem.2] at hch
      simp only [List.mem_cons, List.mem_singleton, List.not_mem_nil, or_false] at hch
      rcases hch with rfl | rfl <;> simp
    · cases hmem

/-- Witness of C3: a run against a directory in which every call succeeds. -/
theorem UpdatePassword_success_one_delete_add_witness :
    (UpdatePassword (allSucceed "CN=u,DC=example,DC=com") upnSame
      (sampleConfig .SecurityTLS) "u@example.com" "old" "new" World.init).1 = none ∧
    ((UpdatePassword (allSucceed "CN=u,DC=example,DC=com") upnSame
      (sampleConfig .SecurityTLS) "u@example.com" "old" "new" World.init).2.since
        World.init).filter Call.isModify
      = [.modify 0 ⟨"CN=u,DC=example,DC=com",
          [⟨.DeleteAttribute, "unicodePwd", [specPasswordValue "old"]⟩,
            ⟨.AddAttribute, "unicodePwd", [specPasswordValue "new"]⟩]⟩] ∧
    (∀ session req, Call.modify session req ∈
        (UpdatePassword (allSucceed "CN=u,DC=example,DC=com") upnSame
          (sampleConfig .SecurityTLS) "u@example.com" "old" "new" World.init).2.since
          World.init →
      ∀ ch ∈ req.Changes, ch.Op ≠ .ReplaceAttribute) :=
  UpdatePassword_success_one_delete_add (allSucceed "CN=u,DC=example,DC=com") upnSame
    (sampleConfig .SecurityTLS) "u@example.com" "old" "new" "u@example.com"
    "CN=u,DC=example,DC=com" ⟨0, sampleConfig .SecurityTLS⟩ World.init
    ⟨[.dialTLS "dc.example.com:389" ⟨"dc.example.com", none, false⟩], [0], 1⟩
    ⟨[.dialTLS "dc.example.com:389" ⟨"dc.example.com", none, false⟩,
      .bind 0 "u@example.com" "old"], [0], 1⟩
    ⟨[.dialTLS "dc.example.com:389" ⟨"dc.example.com", none, false⟩,
      .bind 0 "u@example.com" "old", .search 0 "userPrincipalName" "u@example.com"], [0], 1⟩
    rfl (by decide) (by decide) (by decide) rfl

/-- C4: in every run of `UpdatePassword` that opened its connection, if the bind with the
old password does not return authenticated (the directory rejects it, the bind fails with
another error, or the old password is empty and no bind is sent), `UpdatePassword` returns
an error and issues no modify. -/
theorem UpdatePassword_no_modify_unless_authenticated (d : Directory)
    (UPN : Config → String → Except GoError String) (config : Config)
    (username oldPasswd newPasswd upn : String) (conn : Conn) (w w1 : World)
    (hU : UPN config username = .ok upn)
    (hC : config.Connect d w = (.ok conn, w1))
    (hB : (conn.Bind d upn oldPasswd w1).1 ≠ (true, none)) :
    (UpdatePassword d UPN config username oldPasswd newPasswd w).1 ≠ none ∧
    ∀ session req, Call.modify session req ∉
      (UpdatePassword d UPN config username oldPasswd newPasswd w).2.since w := by
  obtain ⟨cs1, hcs1, hcs1'⟩ := Connect_trace d config w
  rw [hC] at hcs1
  simp only at hcs1
  obtain ⟨hr, cs2, hcs2, hcs2'⟩ := body_unauthenticated d conn upn oldPasswd
    (specPasswordValue oldPasswd) (specPasswordValue newPasswd) w1 hB
  rw [UpdatePassword_connected d UPN config username oldPasswd newPasswd upn conn w w1 hU hC]
  refine ⟨hr, ?_⟩
  intro session req hmem
  have hsince : (ldap.Close conn.conn (UpdatePassword.body d conn upn oldPasswd
      (specPasswordValue oldPasswd) (specPasswordValue newPasswd) w1).2).since w
      = cs1 ++ cs2 ++ [.close conn.conn] := by
    apply since_of_trace
    simp only [ldap.Close, hcs2, hcs1]
    simp
  simp only at hmem
  rw [hsince] at hmem
  simp only [List.mem_append, List.mem_singleton] at hmem
  rcases hmem with (hmem | hmem) | hmem
  · have := (hcs1' _ hmem).1
    simp [Call.isModify] at this
  · have := hcs2' _ hmem
    simp [Call.isModify] at this
  · cases hmem

/-- Witness of C4: the directory rejects the old password; no modify is issued. -/
theorem UpdatePassword_no_modify_unless_authenticated_witness :
    (UpdatePassword (bindFails (.ldap LDAPResultInvalidCredentials lockedText)) upnSame
      (sampleConfig .SecurityNone) "u@example.com" "old" "new" World.init).1 ≠ none ∧
    ∀ session req, Call.modify session req ∉
      (UpdatePassword (bindFails (.ldap LDAPResultInvalidCredentials lockedText)) upnSame
        (sampleConfig .SecurityNone) "u@example.com" "old" "new" World.init).2.since
        World.init :=
  UpdatePassword_no_modify_unless_authenticated
    (bindFails (.ldap LDAPResultInvalidCredentials lockedText)) upnSame
    (sampleConfig .SecurityNone) "u@example.com" "old" "new" "u@example.com"
    ⟨0, sampleConfig .SecurityNone⟩ World.init ⟨[.dial "dc.example.com:389"], [0], 1⟩
    rfl (by decide) (by decide)

/-- C8: in every run of `UpdatePassword` that opened its connection, whatever the body
does (success, bind failure, DN resolution failure, modify failure), the calls issued end
with the close of that connection, no call before it is a close, so the connection is
closed exactly once, and its session is not open when `UpdatePassword` returns. -/
theorem UpdatePassword_closes_once (d : Directory)
    (UPN : Config → String → Except GoError String) (config : Config)
    (username oldPasswd newPasswd upn : String) (conn : Conn) (w w1 : World)
    (hU : UPN config username = .ok upn)
    (hC : config.Connect d w = (.ok conn, w1)) :
    (∃ cs, (UpdatePassword d UPN config username oldPasswd newPasswd w).2.since w
        = cs ++ [.close conn.conn] ∧ ∀ call ∈ cs, call.isClose = false) ∧
    ((UpdatePassword d UPN config username oldPasswd newPasswd w).2.since w).count
      (.close conn.conn) = 1 ∧
    conn.conn ∉ (UpdatePassword d UPN config username oldPasswd newPasswd w).2.live := by
  obtain ⟨cs1, hcs1, hcs1'⟩ := Connect_trace d config w
  rw [hC] at hcs1
  simp only at hcs1
  obtain ⟨cs2, hcs2, hcs2'⟩ := body_trace d conn upn oldPasswd
    (specPasswordValue oldPasswd) (specPasswordValue newPasswd) w1
  rw [UpdatePassword_connected d UPN config username oldPasswd newPasswd upn conn w w1 hU hC]
  have hsince : (ldap.Close conn.conn (UpdatePassword.body d conn upn oldPasswd
      (specPasswordValue oldPasswd) (specPasswordValue newPasswd) w1).2).since w
      = (cs1 ++ cs2) ++ [.close conn.conn] := by
    apply since_of_trace
    simp only [ldap.Close, hcs2, hcs1]
    simp
  have hno : ∀ call ∈ cs1 ++ cs2, call.isClose = false := by
    intro call hc
    simp only [List.mem_append] at hc
    rcases hc with hc | hc
    · exact (hcs1' call hc).2
    · exact (hcs2' call hc).1
  have hnot : Call.close conn.conn ∉ cs1 ++ cs2 := by
    intro hc
    have := hno _ hc
    simp [Call.isClose] at this
  refine ⟨⟨cs1 ++ cs2, hsince, hno⟩, ?_, ?_⟩
  · simp only
    rw [hsince, List.count_append, List.count_eq_zero_of_not_mem hnot]
    simp
  · simp [ldap.Close]

/-- Witness of C8: a run in which the directory refuses the new password at the modify. -/
theorem UpdatePassword_closes_once_witness :
    (∃ cs, (UpdatePassword (modifyFails "CN=u,DC=example,DC=com" (.ldap 19 policyText))
        upnSame (sampleConfig .SecurityNone) "u@example.com" "old" "new" World.init).2.since
        World.init = cs ++ [.close 0] ∧ ∀ call ∈ cs, call.isClose = false) ∧
    ((UpdatePassword (modifyFails "CN=u,DC=example,DC=com" (.ldap 19 policyText))
        upnSame (sampleConfig .SecurityNone) "u@example.com" "old" "new" World.init).2.since
        World.init).count (.close 0) = 1 ∧
    0 ∉ (UpdatePassword (modifyFails "CN=u,DC=example,DC=com" (.ldap 19 policyText))
        upnSame (sampleConfig .SecurityNone) "u@example.com" "old" "new" World.init).2.live :=
  UpdatePassword_closes_once (modifyFails "CN=u,DC=example,DC=com" (.ldap 19 policyText))
    upnSame (sampleConfig .SecurityNone) "u@example.com" "old" "new" "u@example.com"
    ⟨0, sampleConfig .SecurityNone⟩ World.init ⟨[.dial "dc.example.com:389"], [0], 1⟩
    rfl (by decide)

set_option maxRecDepth 100000 in
/-- C9, evaluated: the modify fails with a network error whose text has a percent sign and
none of the three markers; `UpdatePassword` returns an error whose message is not the
prefix followed by that text: each percent sign and the letter after it came out as a
missing-operand notice. A message without a percent sign does come out as it is. -/
theorem UpdatePassword_modify_error_percent :
    strings.Contains brokenPipeText "0000052D" = false ∧
    strings.Contains brokenPipeText "00000056" = false ∧
    strings.Contains brokenPipeText "00000005" = false ∧
    (UpdatePassword (modifyFails "CN=u,DC=example,DC=com" (.ldap 200 brokenPipeText)) upnSame
      linkLocalConfig "u@example.com" "old" "new" World.init).1
      = some (errors.New "Password error: Unable to modify password: LDAP Result Code 200 \"Network Error\": write tcp [fe80::1%!e(MISSING)th0]:51514->[fe80::2%!e(MISSING)th0]:389: write: broken pipe") ∧
    (UpdatePassword (modifyFails "CN=u,DC=example,DC=com" (.ldap 200 brokenPipeText)) upnSame
      linkLocalConfig "u@example.com" "old" "new" World.init).1
      ≠ some (errors.New ("Password error: Unable to modify password: " ++ brokenPipeText)) ∧
    (∀ msg : String, '%' ∉ msg.data → fmt.Errorf msg = errors.New msg) := by
  refine ⟨by decide, by decide, by decide, by decide, by decide, ?_⟩
  intro msg h
  simp only [fmt.Errorf, doPrintf, doPrintf_loop_no_percent msg.data h]

end Auth
